/-
Verification of the news–market correlation and impact-scoring engine
(Dayhunt/News-Driven-Stock-Market-Intelligence).

Shallow embedding of the scoring code in
`agents/analysis_agent.py`, `agents/impact_agent.py`,
`agents/correlation_agent.py` and `core/config.py`.

Modelling conventions:
* Python floats are idealised as rationals (`ℚ`); `round(x, 4)` is
  round-half-to-even at 4 decimal places (`round4` below), which is
  Python's rounding mode.
* Python dicts used as ticker → quote maps are modelled as functions
  `String → Option Quote` (`None` = key absent).
* `pandas.DataFrame.sort_values` on one column guarantees only a
  permutation of the rows ordered on that column; its default
  `kind='quicksort'` is documented as not stable, so the relative order
  of tied rows is unspecified.  That contract is stated as
  `IsSortValuesDesc` / `IsSortValuesAsc`; the executable functions
  `sortDescByAvg` / `sortAscByAvg` used by `run` are one admissible
  realization of it, and no theorem relies on their tie order.
* `pandas.groupby(...).apply` keeps rows of one group in input order and
  sorts the group keys; `Series.idxmax` picks the first row attaining
  the maximum, which is embedded as the fold `bestRow` below.
-/
import Mathlib

namespace NewsIntel

/-! ## Rounding: Python `round(x, 4)` on rationals (round-half-to-even) -/

/-- Round a rational to the nearest integer, ties to the even integer
(Python / IEEE `round`). -/
def rhe (q : ℚ) : ℤ :=
  if q - ⌊q⌋ < 1/2 then ⌊q⌋
  else if (1:ℚ)/2 < q - ⌊q⌋ then ⌊q⌋ + 1
  else if ⌊q⌋ % 2 = 0 then ⌊q⌋ else ⌊q⌋ + 1

/-- Python `round(q, 4)`. -/
def round4 (q : ℚ) : ℚ := (rhe (q * 10000) : ℚ) / 10000

theorem rhe_le (q : ℚ) : (rhe q : ℚ) ≤ q + 1/2 := by
  unfold rhe
  have h1 : (⌊q⌋ : ℚ) ≤ q := Int.floor_le q
  have h2 : q < ⌊q⌋ + 1 := Int.lt_floor_add_one q
  split_ifs with ha hb hc <;> push_cast <;> linarith

theorem le_rhe (q : ℚ) : q - 1/2 ≤ (rhe q : ℚ) := by
  unfold rhe
  have h1 : (⌊q⌋ : ℚ) ≤ q := Int.floor_le q
  have h2 : q < ⌊q⌋ + 1 := Int.lt_floor_add_one q
  split_ifs with ha hb hc <;> push_cast <;> linarith

theorem rhe_mono {x y : ℚ} (h : x ≤ y) : rhe x ≤ rhe y := by
  by_contra hlt
  push_neg at hlt
  have hint : rhe y + 1 ≤ rhe x := hlt
  have hcast : (rhe y : ℚ) + 1 ≤ (rhe x : ℚ) := by exact_mod_cast hint
  have hyx : y ≤ x := by linarith [rhe_le x, le_rhe y]
  have hxy : x = y := le_antisymm h hyx
  subst hxy
  omega

theorem round4_mono {x y : ℚ} (h : x ≤ y) : round4 x ≤ round4 y := by
  unfold round4
  have hm : rhe (x * 10000) ≤ rhe (y * 10000) := by
    apply rhe_mono
    nlinarith
  have hc : (rhe (x * 10000) : ℚ) ≤ (rhe (y * 10000) : ℚ) := by exact_mod_cast hm
  linarith

/-! ## `core/config.py` -/

/-- The `IMPACT_WEIGHTS` dict of `core/config.py` (keys sentiment /
movement / volume). -/
structure Weights where
  sentiment : ℚ
  movement : ℚ
  volume : ℚ
deriving Repr, DecidableEq

/-- `IMPACT_WEIGHTS = {"sentiment": 0.45, "movement": 0.35, "volume": 0.20}` -/
def IMPACT_WEIGHTS : Weights := ⟨0.45, 0.35, 0.20⟩

/-- Sum of the three scoring weights (the "must sum to 1.0" invariant). -/
def sumWeights (w : Weights) : ℚ := w.sentiment + w.movement + w.volume

/-- `SENTIMENT_SCORE_MAP` of `core/config.py`. -/
def SENTIMENT_SCORE_MAP : List (String × ℚ) :=
  [("1 star", -1.0), ("2 stars", -0.5), ("3 stars", 0.0), ("4 stars", 0.5),
   ("5 stars", 1.0), ("neutral", 0.0), ("positive", 0.5), ("negative", -0.5)]

/-! ## Data model -/

/-- One processed news article (entry of `data/news_processed.json` as read
by `AnalysisAgent.run`). -/
structure Article where
  title : String
  summary : String
  sentiment : String
  companies : List String
  keywords : List String
  timestamp : String
deriving Repr, Inhabited

/-- One OHLCV quote (value of the `market_data` dict). -/
structure Quote where
  openP : ℚ
  high : ℚ
  low : ℚ
  closeP : ℚ
  volume : ℕ
deriving Repr, Inhabited

/-- One joined (article, ticker) row as appended to `rows` in
`AnalysisAgent.run`. -/
structure MatchRow where
  symbol : String
  sentiment_label : String
  sentiment_num : ℚ
  movement_score : ℚ
  volume : ℕ
  volume_score : ℚ
  impact_score : ℚ
  trend : String
  openP : ℚ
  closeP : ℚ
  high : ℚ
  low : ℚ
  news_headline : String
  matched_news : String
  summary : String
  keywords : List String
  timestamp : String
deriving Repr, Inhabited

/-- One per-ticker aggregate produced by the groupby-apply in
`AnalysisAgent.run`. -/
structure TickerSummary where
  symbol : String
  avg_impact : ℚ
  max_impact : ℚ
  min_impact : ℚ
  article_count : ℕ
  trend : String
  openP : ℚ
  closeP : ℚ
  volume : ℕ
  top_headline : String
  top_summary : String
  sentiment_label : String
deriving Repr, Inhabited

/-- The output dict written to `data/analysis_output.json`. -/
structure RankedOutput where
  generated_at : String
  top_10_bullish : List TickerSummary
  top_10_bearish : List TickerSummary
  aggregated : List TickerSummary
  full_list : List MatchRow
deriving Repr, Inhabited

/-! ## `agents/impact_agent.py` (superseded two-factor pipeline) -/

namespace ImpactAgent

/-- `ImpactAgent.sentiment_to_number`. -/
def sentiment_to_number (label : String) : ℚ :=
  (SENTIMENT_SCORE_MAP.lookup label.trim.toLower).getD 0.0

/-- `ImpactAgent.compute_impact_score` (the 60/40 two-factor formula). -/
def compute_impact_score (sentiment_num movement_score : ℚ) : ℚ :=
  round4 (sentiment_num * 0.6 + movement_score * 0.4)

/-- `ImpactAgent.trend_strength`: the classifier with explicit band
bounds in its `elif` conditions. -/
def trend_strength (score : ℚ) : String :=
  if score > 0.25 then "Strong Bullish"
  else if 0.05 < score ∧ score ≤ 0.25 then "Moderate Bullish"
  else if -0.05 ≤ score ∧ score ≤ 0.05 then "Neutral"
  else if -0.25 ≤ score ∧ score < -0.05 then "Moderate Bearish"
  else "Strong Bearish"

end ImpactAgent

/-! ## `agents/correlation_agent.py` -/

namespace CorrelationAgent

/-- `CorrelationAgent.intraday_movement_score`: guarded relative
intraday change of a quote entry. -/
def intraday_movement_score (entry : Quote) : ℚ :=
  if entry.openP = 0 then 0.0
  else round4 ((entry.closeP - entry.openP) / entry.openP)

end CorrelationAgent

/-! ## `agents/analysis_agent.py` (the unified engine) -/

namespace AnalysisAgent

/-- `AnalysisAgent._sentiment_num`: sentiment label → float via
`SENTIMENT_SCORE_MAP`, defaulting to 0.0. -/
def sentiment_num (label : String) : ℚ :=
  (SENTIMENT_SCORE_MAP.lookup label.trim.toLower).getD 0.0

/-- `AnalysisAgent._movement_score`:
`round((c - o) / o, 4) if o != 0 else 0.0`. -/
def movement_score (entry : Quote) : ℚ :=
  if entry.openP ≠ 0 then round4 ((entry.closeP - entry.openP) / entry.openP)
  else 0.0

/-- `AnalysisAgent._volume_score`: fixed step thresholds on raw volume. -/
def volume_score (volume : ℕ) : ℚ :=
  if volume > 50000000 then 1.0
  else if volume > 10000000 then 0.5
  else if volume > 1000000 then 0.2
  else 0.0

/-- `AnalysisAgent._impact_score`: weighted sum, the volume term signed
by the sentiment's sign. -/
def impact_score (sentiment_num movement volume_score : ℚ) : ℚ :=
  let sign : ℚ := if sentiment_num ≥ 0 then 1 else -1
  round4 (IMPACT_WEIGHTS.sentiment * sentiment_num
        + IMPACT_WEIGHTS.movement * movement
        + IMPACT_WEIGHTS.volume * volume_score * sign)

/-- `AnalysisAgent._trend`: the plain cascaded classifier. -/
def trend (score : ℚ) : String :=
  if score > 0.25 then "Strong Bullish"
  else if score > 0.05 then "Moderate Bullish"
  else if score ≥ -0.05 then "Neutral"
  else if score ≥ -0.25 then "Moderate Bearish"
  else "Strong Bearish"

/-- The row dict appended inside the double loop of
`AnalysisAgent.run` for one (article, ticker, quote) match. -/
def mkRow (article : Article) (ticker : String) (mkt : Quote) : MatchRow :=
  let sent_num := sentiment_num article.sentiment
  let movement := movement_score mkt
  let vol_score := volume_score mkt.volume
  let impact := impact_score sent_num movement vol_score
  { symbol := ticker
    sentiment_label := article.sentiment
    sentiment_num := sent_num
    movement_score := movement
    volume := mkt.volume
    volume_score := vol_score
    impact_score := impact
    trend := trend impact
    openP := mkt.openP
    closeP := mkt.closeP
    high := mkt.high
    low := mkt.low
    news_headline := article.title
    matched_news := article.title
    summary := article.summary
    keywords := article.keywords
    timestamp := article.timestamp }

/-- The double loop of `AnalysisAgent.run` that builds `rows`:
for each article, for each mentioned ticker, skip when the ticker has
no market entry, otherwise append one row. -/
def joinRows (news : List Article) (market : String → Option Quote) :
    List MatchRow :=
  news.foldl (fun rows article =>
    article.companies.foldl (fun rows ticker =>
      match market ticker with
      | none => rows
      | some mkt => rows ++ [mkRow article ticker mkt]) rows) []

/-- The impact scores of a group of rows (`g["impact_score"]`). -/
def impacts (g : List MatchRow) : List ℚ := g.map (·.impact_score)

/-- `g["impact_score"].mean()`. -/
def meanImpact (g : List MatchRow) : ℚ := (impacts g).sum / g.length

/-- `g["impact_score"].max()` (0 on the empty group, unreachable). -/
def maxImpact : List MatchRow → ℚ
  | [] => 0
  | r :: rs => rs.foldl (fun acc x => max acc x.impact_score) r.impact_score

/-- `g["impact_score"].min()` (0 on the empty group, unreachable). -/
def minImpact : List MatchRow → ℚ
  | [] => 0
  | r :: rs => rs.foldl (fun acc x => min acc x.impact_score) r.impact_score

/-- `g.loc[g["impact_score"].idxmax()]`: the first row of the group
attaining the maximal impact score (`idxmax` returns the first index of
the maximum; later rows replace the current best only when strictly
greater). -/
def bestRow : List MatchRow → MatchRow
  | [] => default
  | r :: rs => rs.foldl (fun best x =>
      if x.impact_score > best.impact_score then x else best) r

/-- The `pd.Series` built for one groupby group in `AnalysisAgent.run`
(`default` on the empty group, which groupby never produces). -/
def summarize : List MatchRow → TickerSummary
  | [] => default
  | r :: rs =>
    { symbol := r.symbol
      avg_impact := round4 (meanImpact (r :: rs))
      max_impact := round4 (maxImpact (r :: rs))
      min_impact := round4 (minImpact (r :: rs))
      article_count := (r :: rs).length
      trend := trend (meanImpact (r :: rs))
      openP := r.openP
      closeP := r.closeP
      volume := r.volume
      top_headline := (bestRow (r :: rs)).news_headline
      top_summary := (bestRow (r :: rs)).summary
      sentiment_label := (bestRow (r :: rs)).sentiment_label }

/-- `df.groupby("symbol").apply(...)`: one summary per distinct symbol;
groupby sorts the group keys and keeps rows of a group in input order. -/
def aggregate (rows : List MatchRow) : List TickerSummary :=
  (((rows.map (·.symbol)).dedup).mergeSort (fun a b => decide (a ≤ b))).map
    (fun t => summarize (rows.filter (fun r => r.symbol == t)))

/-- The documented contract of `agg.sort_values("avg_impact",
ascending=False)` with pandas' default `kind='quicksort'`: the result
is some permutation of the input that is non-strictly descending on the
column.  The relative order of rows with equal `avg_impact` is left
unspecified, because the default quicksort is documented as not
stable. -/
def IsSortValuesDesc (input output : List TickerSummary) : Prop :=
  List.Perm output input ∧
  List.Pairwise (fun a b => b.avg_impact ≤ a.avg_impact) output

/-- The contract of `agg.sort_values("avg_impact", ascending=True)`,
dually: some non-strictly ascending permutation, tie order
unspecified. -/
def IsSortValuesAsc (input output : List TickerSummary) : Prop :=
  List.Perm output input ∧
  List.Pairwise (fun a b => a.avg_impact ≤ b.avg_impact) output

/-- One admissible realization of the `IsSortValuesDesc` contract,
used to keep `run` executable.  Nothing below relies on how this
realization orders tied rows, since `sort_values` leaves that
unspecified. -/
def sortDescByAvg (agg : List TickerSummary) : List TickerSummary :=
  agg.mergeSort (fun a b => decide (b.avg_impact ≤ a.avg_impact))

/-- One admissible realization of the `IsSortValuesAsc` contract, used
to keep `run` executable; its tie order is likewise not relied upon. -/
def sortAscByAvg (agg : List TickerSummary) : List TickerSummary :=
  agg.mergeSort (fun a b => decide (a.avg_impact ≤ b.avg_impact))

/-- `AnalysisAgent.run` from the loaded inputs to the output dict:
join, then aggregate/rank when any row exists, else emit the
well-formed empty output (`now` stands for `str(datetime.now())`). -/
def run (news : List Article) (market : String → Option Quote)
    (now : String) : RankedOutput :=
  let rows := joinRows news market
  if rows.isEmpty then
    { generated_at := now
      top_10_bullish := []
      top_10_bearish := []
      aggregated := []
      full_list := [] }
  else
    let agg := aggregate rows
    { generated_at := now
      top_10_bullish := (sortDescByAvg agg).take 10
      top_10_bearish := (sortAscByAvg agg).take 10
      aggregated := agg
      full_list := rows }

/-- `AnalysisAgent.__init__`: its only statement is
`os.makedirs("data", exist_ok=True)`; it inspects no configuration, so
initialisation succeeds whatever the configured weights are.  The
filesystem side effect is outside the embedding; the weight
configuration is passed explicitly to express that it is ignored. -/
def init (_w : Weights) : Except String Unit := Except.ok ()

end AnalysisAgent

/-- A concrete summary used to exhibit the unspecified tie order of the
`sort_values` contract. -/
def tiedA : TickerSummary :=
  ⟨"AAA", 0.1, 0.1, 0.1, 1, "Moderate Bullish", 10, 11, 1000, "a", "a", "positive"⟩

/-- A second summary, distinct from `tiedA` but with the same
`avg_impact`. -/
def tiedB : TickerSummary :=
  ⟨"BBB", 0.1, 0.1, 0.1, 1, "Moderate Bullish", 20, 21, 2000, "b", "b", "positive"⟩

/-! ## Shared helper lemmas -/

/-- The two trend classifiers of the source agree everywhere: the
explicit band bounds in `ImpactAgent.trend_strength` are redundant
under its `elif` cascade. -/
theorem trendStrength_eq_trend (s : ℚ) :
    ImpactAgent.trend_strength s = AnalysisAgent.trend s := by
  rcases lt_or_le (0.25:ℚ) s with h1 | h1
  · simp [ImpactAgent.trend_strength, AnalysisAgent.trend, h1]
  · rcases lt_or_le (0.05:ℚ) s with h2 | h2
    · simp [ImpactAgent.trend_strength, AnalysisAgent.trend,
            not_lt.mpr h1, h1, h2]
    · rcases le_or_lt (-0.05:ℚ) s with h3 | h3
      · simp [ImpactAgent.trend_strength, AnalysisAgent.trend,
              not_lt.mpr h1, not_lt.mpr h2, h2, h3]
      · rcases le_or_lt (-0.25:ℚ) s with h4 | h4
        · simp [ImpactAgent.trend_strength, AnalysisAgent.trend,
                not_lt.mpr h1, not_lt.mpr h2, not_le.mpr h3, h3, h4]
        · simp [ImpactAgent.trend_strength, AnalysisAgent.trend,
                not_lt.mpr h1, not_lt.mpr h2, not_le.mpr h3, not_le.mpr h4]

/-- The inner ticker loop of `AnalysisAgent.run`: folding over the
mentioned tickers appends, in mention order, one row per ticker that
has a quote. -/
theorem joinRows_inner (market : String → Option Quote) (a : Article) :
    ∀ (l : List String) (acc : List MatchRow),
      l.foldl (fun rows ticker =>
        match market ticker with
        | none => rows
        | some mkt => rows ++ [AnalysisAgent.mkRow a ticker mkt]) acc
      = acc ++ l.filterMap (fun t => (market t).map (AnalysisAgent.mkRow a t)) := by
  intro l
  induction l with
  | nil => intro acc; simp
  | cons t ts ih =>
    intro acc
    cases h : market t with
    | none => simp [h, ih]
    | some mkt => simp [h, ih]

/-- The outer article loop of `AnalysisAgent.run` appends, in article
order, each article's matched-mention rows. -/
theorem joinRows_outer (market : String → Option Quote) :
    ∀ (news : List Article) (acc : List MatchRow),
      news.foldl (fun rows article =>
        article.companies.foldl (fun rows ticker =>
          match market ticker with
          | none => rows
          | some mkt => rows ++ [AnalysisAgent.mkRow article ticker mkt]) rows) acc
      = acc ++ news.flatMap
          (fun a => a.companies.filterMap (fun t => (market t).map (AnalysisAgent.mkRow a t))) := by
  intro news
  induction news with
  | nil => intro acc; simp
  | cons a as ih =>
    intro acc
    simp only [List.foldl_cons]
    rw [joinRows_inner, ih, List.flatMap_cons, List.append_assoc]

/-- One article contributes exactly as many rows as it has mentioned
tickers with a quote. -/
theorem mentions_length (market : String → Option Quote) (a : Article) :
    ∀ l : List String,
      (l.filterMap (fun t => (market t).map (AnalysisAgent.mkRow a t))).length
        = (l.filter (fun t => (market t).isSome)).length := by
  intro l
  induction l with
  | nil => simp
  | cons t ts ih => cases h : market t <;> simp [h, ih]

/-! ## Claim theorems -/

/-- C2: the join emits exactly one `MatchRow` per (article, mentioned
ticker) pair whose ticker has a quote — articles in input order, and
within each article the mentions in mention order, with quote-less
mentions silently skipped and no sort applied; consequently the number
of rows is the sum over articles of their quoted-mention counts. -/
theorem joinRows_characterization (news : List Article)
    (market : String → Option Quote) :
    AnalysisAgent.joinRows news market
      = news.flatMap (fun a =>
          a.companies.filterMap (fun t => (market t).map (AnalysisAgent.mkRow a t))) ∧
    (AnalysisAgent.joinRows news market).length
      = (news.map (fun a =>
          (a.companies.filter (fun t => (market t).isSome)).length)).sum := by
  have hchar : AnalysisAgent.joinRows news market
      = news.flatMap (fun a =>
          a.companies.filterMap (fun t => (market t).map (AnalysisAgent.mkRow a t))) := by
    unfold AnalysisAgent.joinRows
    simpa using joinRows_outer market news []
  have hlen : ∀ ns : List Article,
      (ns.flatMap (fun a =>
        a.companies.filterMap (fun t => (market t).map (AnalysisAgent.mkRow a t)))).length
        = (ns.map (fun a =>
            (a.companies.filter (fun t => (market t).isSome)).length)).sum := by
    intro ns
    induction ns with
    | nil => simp
    | cons a as ih =>
      simp only [List.flatMap_cons, List.length_append, ih, List.map_cons,
        List.sum_cons, mentions_length]
  exact ⟨hchar, hchar ▸ hlen news⟩

/-- C5: `AnalysisAgent._trend` is a total, non-overlapping partition of
the (rational) score line into exactly the five labels: a score maps to
Strong Bullish iff it exceeds 0.25, to Moderate Bullish iff it lies in
(0.05, 0.25], to Neutral iff in [-0.05, 0.05], to Moderate Bearish iff
in [-0.25, -0.05), to Strong Bearish iff below -0.25, and every score
gets one of the five labels. -/
theorem trend_five_way_partition (s : ℚ) :
    (AnalysisAgent.trend s = "Strong Bullish" ↔ 0.25 < s) ∧
    (AnalysisAgent.trend s = "Moderate Bullish" ↔ 0.05 < s ∧ s ≤ 0.25) ∧
    (AnalysisAgent.trend s = "Neutral" ↔ -0.05 ≤ s ∧ s ≤ 0.05) ∧
    (AnalysisAgent.trend s = "Moderate Bearish" ↔ -0.25 ≤ s ∧ s < -0.05) ∧
    (AnalysisAgent.trend s = "Strong Bearish" ↔ s < -0.25) ∧
    (AnalysisAgent.trend s = "Strong Bullish" ∨
     AnalysisAgent.trend s = "Moderate Bullish" ∨
     AnalysisAgent.trend s = "Neutral" ∨
     AnalysisAgent.trend s = "Moderate Bearish" ∨
     AnalysisAgent.trend s = "Strong Bearish") := by
  unfold AnalysisAgent.trend
  split_ifs with h1 h2 h3 h4 <;> push_neg at * <;>
    refine ⟨?_, ?_, ?_, ?_, ?_, ?_⟩ <;> simp <;>
    first
    | linarith
    | (constructor <;> linarith)
    | (intro h; linarith)

/-- C6 counterexample: the claim that the source's two
trend-classification implementations disagree on some score is false:
no rational score distinguishes `ImpactAgent.trend_strength` from
`AnalysisAgent._trend`. -/
theorem trend_classifiers_never_disagree :
    ¬ ∃ s : ℚ, ImpactAgent.trend_strength s ≠ AnalysisAgent.trend s :=
  fun ⟨s, hs⟩ => hs (trendStrength_eq_trend s)

/-- C6 amended: the two trend-classification implementations
(`ImpactAgent.trend_strength` and `AnalysisAgent._trend`) are
extensionally equal as functions of the score; in particular they agree
at the boundary values 0.05, -0.05, 0.25 and -0.25, the explicit band
bounds in `trend_strength` being redundant under its `elif` cascade. -/
theorem trend_classifiers_extensionally_equal (s : ℚ) :
    ImpactAgent.trend_strength s = AnalysisAgent.trend s :=
  trendStrength_eq_trend s

/-- C7: `AnalysisAgent._volume_score` is the strict-threshold step
function (1.0 above 50 M, 0.5 above 10 M, 0.2 above 1 M, else 0.0);
exactly at 50 M it yields 0.5 and exactly at 1 M it yields 0.0; it is
monotone non-decreasing and takes only the values 0.0, 0.2, 0.5, 1.0. -/
theorem volume_score_step_function :
    (∀ v : ℕ, 50000000 < v → AnalysisAgent.volume_score v = 1.0) ∧
    (∀ v : ℕ, 10000000 < v → v ≤ 50000000 →
      AnalysisAgent.volume_score v = 0.5) ∧
    (∀ v : ℕ, 1000000 < v → v ≤ 10000000 →
      AnalysisAgent.volume_score v = 0.2) ∧
    (∀ v : ℕ, v ≤ 1000000 → AnalysisAgent.volume_score v = 0.0) ∧
    AnalysisAgent.volume_score 50000000 = 0.5 ∧
    AnalysisAgent.volume_score 1000000 = 0.0 ∧
    (∀ v w : ℕ, v ≤ w →
      AnalysisAgent.volume_score v ≤ AnalysisAgent.volume_score w) ∧
    (∀ v : ℕ, AnalysisAgent.volume_score v = 0.0 ∨
      AnalysisAgent.volume_score v = 0.2 ∨
      AnalysisAgent.volume_score v = 0.5 ∨
      AnalysisAgent.volume_score v = 1.0) := by
  refine ⟨?_, ?_, ?_, ?_, ?_, ?_, ?_, ?_⟩
  · intro v h; simp [AnalysisAgent.volume_score, h]
  · intro v h1 h2
    unfold AnalysisAgent.volume_score
    split_ifs <;> first | rfl | omega
  · intro v h1 h2
    unfold AnalysisAgent.volume_score
    split_ifs <;> first | rfl | omega
  · intro v h
    unfold AnalysisAgent.volume_score
    split_ifs <;> first | rfl | omega
  · norm_num [AnalysisAgent.volume_score]
  · norm_num [AnalysisAgent.volume_score]
  · intro v w h
    unfold AnalysisAgent.volume_score
    split_ifs <;> first | (exfalso; omega) | norm_num
  · intro v
    unfold AnalysisAgent.volume_score
    split_ifs <;> simp

/-- C7 witness: concrete volumes exercising every branch and the
monotonicity hypothesis of `volume_score_step_function`. -/
theorem volume_score_step_function_witness :
    AnalysisAgent.volume_score 60000000 = 1.0 ∧
    AnalysisAgent.volume_score 20000000 = 0.5 ∧
    AnalysisAgent.volume_score 2000000 = 0.2 ∧
    AnalysisAgent.volume_score 5 = 0.0 ∧
    AnalysisAgent.volume_score 2000000 ≤ AnalysisAgent.volume_score 60000000 :=
  ⟨volume_score_step_function.1 60000000 (by norm_num),
   volume_score_step_function.2.1 20000000 (by norm_num) (by norm_num),
   volume_score_step_function.2.2.1 2000000 (by norm_num) (by norm_num),
   volume_score_step_function.2.2.2.1 5 (by norm_num),
   volume_score_step_function.2.2.2.2.2.2.1 2000000 60000000 (by norm_num)⟩

/-- C8: both movement scorers return `round4 ((close - open) / open)`
whenever the open price is non-zero and exactly 0.0 when the open is
zero (the division is guarded); the two implementations agree on every
quote, and being total functions they never fail. -/
theorem movement_score_guarded (q : Quote) :
    (q.openP = 0 → AnalysisAgent.movement_score q = 0.0 ∧
      CorrelationAgent.intraday_movement_score q = 0.0) ∧
    (q.openP ≠ 0 →
      AnalysisAgent.movement_score q = round4 ((q.closeP - q.openP) / q.openP) ∧
      CorrelationAgent.intraday_movement_score q
        = round4 ((q.closeP - q.openP) / q.openP)) ∧
    AnalysisAgent.movement_score q = CorrelationAgent.intraday_movement_score q := by
  by_cases h : q.openP = 0 <;>
    simp [AnalysisAgent.movement_score, CorrelationAgent.intraday_movement_score, h]

/-- C8 witness: a degenerate quote with open = 0 and a regular quote
with open = 100, close = 105, discharging both guards of
`movement_score_guarded`. -/
theorem movement_score_guarded_witness :
    (AnalysisAgent.movement_score ⟨0, 0, 0, 5, 10⟩ = 0.0 ∧
     CorrelationAgent.intraday_movement_score ⟨0, 0, 0, 5, 10⟩ = 0.0) ∧
    (AnalysisAgent.movement_score ⟨100, 0, 0, 105, 10⟩
       = round4 (((105:ℚ) - 100) / 100) ∧
     CorrelationAgent.intraday_movement_score ⟨100, 0, 0, 105, 10⟩
       = round4 (((105:ℚ) - 100) / 100)) :=
  ⟨(movement_score_guarded ⟨0, 0, 0, 5, 10⟩).1 rfl,
   (movement_score_guarded ⟨100, 0, 0, 105, 10⟩).2.1 (by norm_num)⟩

/-- C1: the impact score is `round4` of the weighted sum
0.45·sentiment + 0.35·movement + 0.20·volume_score·sign with the sign
taken from the sentiment (+1 when sentiment_num ≥ 0, else -1); holding
a non-negative sentiment and the movement fixed, raising the volume
score from 0 never decreases the impact score. -/
theorem impact_score_signed_formula (s m v : ℚ) :
    AnalysisAgent.impact_score s m v
      = round4 (0.45 * s + 0.35 * m + 0.20 * v * (if s ≥ 0 then 1 else -1)) ∧
    (0 ≤ s → 0 ≤ v →
      AnalysisAgent.impact_score s m 0 ≤ AnalysisAgent.impact_score s m v) := by
  constructor
  · simp only [AnalysisAgent.impact_score, IMPACT_WEIGHTS]
  · intro hs hv
    have hsign : (if s ≥ 0 then (1:ℚ) else -1) = 1 := if_pos hs
    simp only [AnalysisAgent.impact_score, hsign]
    apply round4_mono
    have h02 : (0:ℚ) ≤ IMPACT_WEIGHTS.volume * v := by
      simp [IMPACT_WEIGHTS]; positivity
    linarith

/-- C1 witness: sentiment 1 ≥ 0 and volume score 1 ≥ 0 discharge the
hypotheses of `impact_score_signed_formula` at the spec's end-to-end
scenario inputs. -/
theorem impact_score_signed_formula_witness :
    (0:ℚ) ≤ 1 ∧ (0:ℚ) ≤ 1 ∧
    AnalysisAgent.impact_score 1 0.05 0 ≤ AnalysisAgent.impact_score 1 0.05 1 :=
  ⟨by norm_num, by norm_num,
   (impact_score_signed_formula 1 0.05 1).2 (by norm_num) (by norm_num)⟩

/-- C9: when the join yields zero rows, `AnalysisAgent.run` still
returns the well-formed output carrying its generation timestamp and
all four sequences empty, raising no error. -/
theorem empty_rows_well_formed_output (news : List Article)
    (market : String → Option Quote) (now : String)
    (h : AnalysisAgent.joinRows news market = []) :
    AnalysisAgent.run news market now =
      { generated_at := now, top_10_bullish := [], top_10_bearish := [],
        aggregated := [], full_list := [] } := by
  unfold AnalysisAgent.run
  simp [h]

/-- C9 witness: the zero-article run produces zero rows and the empty
well-formed output. -/
theorem empty_rows_well_formed_output_witness :
    AnalysisAgent.joinRows [] (fun _ => none) = [] ∧
    AnalysisAgent.run [] (fun _ => none) "2025-01-01" =
      { generated_at := "2025-01-01", top_10_bullish := [], top_10_bearish := [],
        aggregated := [], full_list := [] } :=
  ⟨rfl, empty_rows_well_formed_output [] (fun _ => none) "2025-01-01" rfl⟩

/-- C10 counterexample: a weight configuration that does not sum to 1.0
is not fatal at startup: `AnalysisAgent.__init__` performs no
validation and succeeds on it. -/
theorem weights_bad_config_not_fatal :
    sumWeights ⟨1, 1, 1⟩ ≠ 1 ∧ AnalysisAgent.init ⟨1, 1, 1⟩ = Except.ok () :=
  ⟨by norm_num [sumWeights], rfl⟩

/-- C10 amended: the configured impact weights (0.45, 0.35, 0.20) sum
to exactly 1.0, but no startup assertion guards the invariant:
`AnalysisAgent.__init__` succeeds for every weight configuration. -/
theorem weights_sum_one_unguarded :
    sumWeights IMPACT_WEIGHTS = 1 ∧
    ∀ w : Weights, AnalysisAgent.init w = Except.ok () :=
  ⟨by norm_num [sumWeights, IMPACT_WEIGHTS], fun _ => rfl⟩


/-- The running maximum over a group: result is the initial value or
some row's impact, bounds the initial value, and bounds every row. -/
theorem foldl_max_spec : ∀ (l : List MatchRow) (init : ℚ),
    (l.foldl (fun acc x => max acc x.impact_score) init = init ∨
      ∃ x ∈ l, l.foldl (fun acc x => max acc x.impact_score) init = x.impact_score) ∧
    init ≤ l.foldl (fun acc x => max acc x.impact_score) init ∧
    ∀ x ∈ l, x.impact_score ≤ l.foldl (fun acc x => max acc x.impact_score) init := by
  intro l
  induction l with
  | nil => intro init; exact ⟨Or.inl rfl, le_refl _, by simp⟩
  | cons y ys ih =>
    intro init
    obtain ⟨hmem, hinit, hall⟩ := ih (max init y.impact_score)
    simp only [List.foldl_cons]
    refine ⟨?_, le_trans (le_max_left _ _) hinit, ?_⟩
    · rcases hmem with h | ⟨x, hx, h⟩
      · rcases max_choice init y.impact_score with hc | hc
        · exact Or.inl (by rw [h, hc])
        · exact Or.inr ⟨y, List.mem_cons_self _ _, by rw [h, hc]⟩
      · exact Or.inr ⟨x, List.mem_cons_of_mem _ hx, h⟩
    · intro x hx
      rcases List.mem_cons.mp hx with rfl | hx
      · exact le_trans (le_max_right _ _) hinit
      · exact hall x hx

/-- The running minimum over a group, dual to `foldl_max_spec`. -/
theorem foldl_min_spec : ∀ (l : List MatchRow) (init : ℚ),
    (l.foldl (fun acc x => min acc x.impact_score) init = init ∨
      ∃ x ∈ l, l.foldl (fun acc x => min acc x.impact_score) init = x.impact_score) ∧
    l.foldl (fun acc x => min acc x.impact_score) init ≤ init ∧
    ∀ x ∈ l, l.foldl (fun acc x => min acc x.impact_score) init ≤ x.impact_score := by
  intro l
  induction l with
  | nil => intro init; exact ⟨Or.inl rfl, le_refl _, by simp⟩
  | cons y ys ih =>
    intro init
    obtain ⟨hmem, hinit, hall⟩ := ih (min init y.impact_score)
    simp only [List.foldl_cons]
    refine ⟨?_, le_trans hinit (min_le_left _ _), ?_⟩
    · rcases hmem with h | ⟨x, hx, h⟩
      · rcases min_choice init y.impact_score with hc | hc
        · exact Or.inl (by rw [h, hc])
        · exact Or.inr ⟨y, List.mem_cons_self _ _, by rw [h, hc]⟩
      · exact Or.inr ⟨x, List.mem_cons_of_mem _ hx, h⟩
    · intro x hx
      rcases List.mem_cons.mp hx with rfl | hx
      · exact le_trans hinit (min_le_right _ _)
      · exact hall x hx

/-- The `idxmax` fold never returns a row with impact below the seed's. -/
theorem foldl_best_le : ∀ (l : List MatchRow) (b : MatchRow),
    b.impact_score ≤ (l.foldl (fun best x =>
      if x.impact_score > best.impact_score then x else best) b).impact_score := by
  intro l
  induction l with
  | nil => intro b; exact le_refl _
  | cons y ys ih =>
    intro b
    simp only [List.foldl_cons]
    refine le_trans ?_ (ih _)
    by_cases h : y.impact_score > b.impact_score
    · simp only [if_pos h]; exact le_of_lt h
    · simp only [if_neg h]; exact le_refl _

/-- The `idxmax` fold returns a row whose impact bounds every row of
the folded list. -/
theorem foldl_best_max : ∀ (l : List MatchRow) (b : MatchRow),
    ∀ x ∈ l, x.impact_score ≤ (l.foldl (fun best x =>
      if x.impact_score > best.impact_score then x else best) b).impact_score := by
  intro l
  induction l with
  | nil => intro b x hx; simp at hx
  | cons y ys ih =>
    intro b x hx
    simp only [List.foldl_cons]
    rcases List.mem_cons.mp hx with rfl | hx
    · refine le_trans ?_ (foldl_best_le ys _)
      by_cases h : x.impact_score > b.impact_score
      · simp only [if_pos h]; exact le_refl _
      · simp only [if_neg h]; exact le_of_not_lt h
    · exact ih _ x hx

/-- First-occurrence property of the `idxmax` fold: either the seed
survives, or the result splits the list with every earlier row strictly
below it. -/
theorem foldl_best_first : ∀ (l : List MatchRow) (b : MatchRow),
    (l.foldl (fun best x =>
        if x.impact_score > best.impact_score then x else best) b = b) ∨
    ∃ l₁ l₂, l = l₁ ++ (l.foldl (fun best x =>
        if x.impact_score > best.impact_score then x else best) b) :: l₂ ∧
      b.impact_score < (l.foldl (fun best x =>
        if x.impact_score > best.impact_score then x else best) b).impact_score ∧
      ∀ x ∈ l₁, x.impact_score < (l.foldl (fun best x =>
        if x.impact_score > best.impact_score then x else best) b).impact_score := by
  intro l
  induction l with
  | nil => intro b; exact Or.inl rfl
  | cons y ys ih =>
    intro b
    simp only [List.foldl_cons]
    by_cases h : y.impact_score > b.impact_score
    · simp only [if_pos h]
      rcases ih y with heq | ⟨l₁, l₂, hys, hlt, hall⟩
      · refine Or.inr ⟨[], ys, ?_, ?_, by simp⟩
        · rw [heq]; simp
        · rw [heq]; exact h
      · refine Or.inr ⟨y :: l₁, l₂, ?_, lt_trans h hlt, ?_⟩
        · rw [List.cons_append, ← hys]
        · intro x hx
          rcases List.mem_cons.mp hx with rfl | hx
          · exact hlt
          · exact hall x hx
    · simp only [if_neg h]
      rcases ih b with heq | ⟨l₁, l₂, hys, hlt, hall⟩
      · exact Or.inl heq
      · refine Or.inr ⟨y :: l₁, l₂, ?_, hlt, ?_⟩
        · rw [List.cons_append, ← hys]
        · intro x hx
          rcases List.mem_cons.mp hx with rfl | hx
          · exact lt_of_le_of_lt (le_of_not_lt h) hlt
          · exact hall x hx


/-- C3: for a ticker group of N = 1 + |rs| rows, the summary has
avg_impact = round4 of the arithmetic mean, article_count = N, trend
classified from the group's mean impact, representative open/close/
volume from the first row of the group, max_impact/min_impact = round4
of the greatest/least impact in the group, and top headline, summary
and sentiment label taken from the first row attaining the maximal
impact score (ties broken by first-encountered). -/
theorem summarize_group_fields (r : MatchRow) (rs : List MatchRow) :
    (AnalysisAgent.summarize (r :: rs)).avg_impact
      = round4 ((AnalysisAgent.impacts (r :: rs)).sum / ((r :: rs).length : ℚ)) ∧
    (AnalysisAgent.summarize (r :: rs)).article_count = (r :: rs).length ∧
    (AnalysisAgent.summarize (r :: rs)).trend
      = AnalysisAgent.trend ((AnalysisAgent.impacts (r :: rs)).sum / ((r :: rs).length : ℚ)) ∧
    (AnalysisAgent.summarize (r :: rs)).openP = r.openP ∧
    (AnalysisAgent.summarize (r :: rs)).closeP = r.closeP ∧
    (AnalysisAgent.summarize (r :: rs)).volume = r.volume ∧
    (AnalysisAgent.maxImpact (r :: rs) ∈ AnalysisAgent.impacts (r :: rs) ∧
      (∀ x ∈ AnalysisAgent.impacts (r :: rs), x ≤ AnalysisAgent.maxImpact (r :: rs)) ∧
      (AnalysisAgent.summarize (r :: rs)).max_impact = round4 (AnalysisAgent.maxImpact (r :: rs))) ∧
    (AnalysisAgent.minImpact (r :: rs) ∈ AnalysisAgent.impacts (r :: rs) ∧
      (∀ x ∈ AnalysisAgent.impacts (r :: rs), AnalysisAgent.minImpact (r :: rs) ≤ x) ∧
      (AnalysisAgent.summarize (r :: rs)).min_impact = round4 (AnalysisAgent.minImpact (r :: rs))) ∧
    ∃ l₁ b l₂, (r :: rs) = l₁ ++ b :: l₂ ∧
      (∀ x ∈ (r :: rs), x.impact_score ≤ b.impact_score) ∧
      (∀ x ∈ l₁, x.impact_score < b.impact_score) ∧
      (AnalysisAgent.summarize (r :: rs)).top_headline = b.news_headline ∧
      (AnalysisAgent.summarize (r :: rs)).top_summary = b.summary ∧
      (AnalysisAgent.summarize (r :: rs)).sentiment_label = b.sentiment_label := by
  obtain ⟨hmaxmem, hmaxinit, hmaxall⟩ := foldl_max_spec rs r.impact_score
  obtain ⟨hminmem, hmininit, hminall⟩ := foldl_min_spec rs r.impact_score
  refine ⟨rfl, rfl, rfl, rfl, rfl, rfl, ⟨?_, ?_, rfl⟩, ⟨?_, ?_, rfl⟩, ?_⟩
  · have hv : AnalysisAgent.maxImpact (r :: rs)
        = rs.foldl (fun acc x => max acc x.impact_score) r.impact_score := rfl
    rcases hmaxmem with h | ⟨x, hx, h⟩
    · rw [hv, h]; exact List.mem_map_of_mem _ (List.mem_cons_self _ _)
    · rw [hv, h]; exact List.mem_map_of_mem _ (List.mem_cons_of_mem _ hx)
  · intro x hx
    obtain ⟨a, ha, rfl⟩ := List.mem_map.mp hx
    rcases List.mem_cons.mp ha with rfl | ha
    · exact hmaxinit
    · exact hmaxall a ha
  · have hv : AnalysisAgent.minImpact (r :: rs)
        = rs.foldl (fun acc x => min acc x.impact_score) r.impact_score := rfl
    rcases hminmem with h | ⟨x, hx, h⟩
    · rw [hv, h]; exact List.mem_map_of_mem _ (List.mem_cons_self _ _)
    · rw [hv, h]; exact List.mem_map_of_mem _ (List.mem_cons_of_mem _ hx)
  · intro x hx
    obtain ⟨a, ha, rfl⟩ := List.mem_map.mp hx
    rcases List.mem_cons.mp ha with rfl | ha
    · exact hmininit
    · exact hminall a ha
  · have hmax : ∀ x ∈ (r :: rs), x.impact_score ≤ (AnalysisAgent.bestRow (r :: rs)).impact_score := by
      intro x hx
      rcases List.mem_cons.mp hx with rfl | hx
      · exact foldl_best_le rs x
      · exact foldl_best_max rs r x hx
    rcases foldl_best_first rs r with heq | ⟨l₁, l₂, hys, hlt, hall⟩
    · exact ⟨[], AnalysisAgent.bestRow (r :: rs), rs, by simp [AnalysisAgent.bestRow, heq], hmax, by simp, rfl, rfl, rfl⟩
    · refine ⟨r :: l₁, AnalysisAgent.bestRow (r :: rs), l₂, ?_, hmax, ?_, rfl, rfl, rfl⟩
      · simp only [AnalysisAgent.bestRow, List.cons_append]
        exact congrArg (r :: ·) hys
      · intro x hx
        rcases List.mem_cons.mp hx with rfl | hx
        · exact hlt
        · exact hall x hx

/-- Transitivity of the descending avg_impact comparison used by the
bullish `sort_values`. -/
theorem descLe_trans : ∀ a b c : TickerSummary,
    (fun a b : TickerSummary => decide (b.avg_impact ≤ a.avg_impact)) a b →
    (fun a b : TickerSummary => decide (b.avg_impact ≤ a.avg_impact)) b c →
    (fun a b : TickerSummary => decide (b.avg_impact ≤ a.avg_impact)) a c := by
  intro a b c h1 h2
  simp only [decide_eq_true_eq] at *
  exact le_trans h2 h1

/-- Totality of the descending avg_impact comparison. -/
theorem descLe_total : ∀ a b : TickerSummary,
    ((fun a b : TickerSummary => decide (b.avg_impact ≤ a.avg_impact)) a b ||
     (fun a b : TickerSummary => decide (b.avg_impact ≤ a.avg_impact)) b a) := by
  intro a b
  simp only [Bool.or_eq_true, decide_eq_true_eq]
  exact le_total _ _

/-- Transitivity of the ascending avg_impact comparison used by the
bearish `sort_values`. -/
theorem ascLe_trans : ∀ a b c : TickerSummary,
    (fun a b : TickerSummary => decide (a.avg_impact ≤ b.avg_impact)) a b →
    (fun a b : TickerSummary => decide (a.avg_impact ≤ b.avg_impact)) b c →
    (fun a b : TickerSummary => decide (a.avg_impact ≤ b.avg_impact)) a c := by
  intro a b c h1 h2
  simp only [decide_eq_true_eq] at *
  exact le_trans h1 h2

/-- Totality of the ascending avg_impact comparison. -/
theorem ascLe_total : ∀ a b : TickerSummary,
    ((fun a b : TickerSummary => decide (a.avg_impact ≤ b.avg_impact)) a b ||
     (fun a b : TickerSummary => decide (a.avg_impact ≤ b.avg_impact)) b a) := by
  intro a b
  simp only [Bool.or_eq_true, decide_eq_true_eq]
  exact le_total _ _

/-- C3 witness: the aggregation field law applied to a concrete
one-row group. -/
theorem summarize_group_fields_witness :
    (AnalysisAgent.summarize
      [⟨"AAPL", "positive", 0.5, 0.05, 60000000, 1.0, 0.6675, "Strong Bullish",
        100, 105, 0, 0, "h", "h", "s", [], "t"⟩]).avg_impact
      = round4 ((AnalysisAgent.impacts
          [⟨"AAPL", "positive", 0.5, 0.05, 60000000, 1.0, 0.6675, "Strong Bullish",
            100, 105, 0, 0, "h", "h", "s", [], "t"⟩]).sum
        / (([⟨"AAPL", "positive", 0.5, 0.05, 60000000, 1.0, 0.6675, "Strong Bullish",
            100, 105, 0, 0, "h", "h", "s", [], "t"⟩] : List MatchRow).length : ℚ)) :=
  (summarize_group_fields
    ⟨"AAPL", "positive", 0.5, 0.05, 60000000, 1.0, 0.6675, "Strong Bullish",
      100, 105, 0, 0, "h", "h", "s", [], "t"⟩ []).1

/-- `sortDescByAvg` is one admissible output of the descending
`sort_values` contract. -/
theorem sortDescByAvg_contract (agg : List TickerSummary) :
    AnalysisAgent.IsSortValuesDesc agg (AnalysisAgent.sortDescByAvg agg) := by
  refine ⟨List.mergeSort_perm agg _, ?_⟩
  exact (List.sorted_mergeSort descLe_trans descLe_total agg).imp
    (fun h => of_decide_eq_true h)

/-- `sortAscByAvg` is one admissible output of the ascending
`sort_values` contract. -/
theorem sortAscByAvg_contract (agg : List TickerSummary) :
    AnalysisAgent.IsSortValuesAsc agg (AnalysisAgent.sortAscByAvg agg) := by
  refine ⟨List.mergeSort_perm agg _, ?_⟩
  exact (List.sorted_mergeSort ascLe_trans ascLe_total agg).imp
    (fun h => of_decide_eq_true h)

/-- C4 counterexample: the tie-break-by-input-order conjunct fails on
the code.  `sort_values` with pandas' default `kind='quicksort'`
guarantees only a sorted permutation, so on the tied input
`[tiedA, tiedB]` the contract also admits the swapped output
`[tiedB, tiedA]`, which differs from the input order even though both
summaries share one `avg_impact`: the program does not guarantee
stable tie-breaking. -/
theorem ranking_stability_not_guaranteed :
    AnalysisAgent.IsSortValuesDesc [tiedA, tiedB] [tiedB, tiedA] ∧
    [tiedB, tiedA] ≠ [tiedA, tiedB] ∧
    tiedA.avg_impact = tiedB.avg_impact := by
  refine ⟨⟨List.Perm.swap _ _ _, ?_⟩, ?_, rfl⟩
  · simp [tiedA, tiedB]
  · simp [tiedA, tiedB]

/-- C4 amended: for every summary list, every output admissible under
the `sort_values` contract (descending for bullish, ascending for
bearish) truncated to 10 has length min(10, number of summaries) and
is sorted by avg_impact in the claimed direction, and when at most 10
summaries exist the truncation is a permutation of all of them (no
padding, no error); the engine's executable sorts satisfy these
contracts, so `run`'s top-10 lists have all these properties.  The
relative order of summaries with equal avg_impact is not part of the
contract (pandas' default quicksort is unstable), so no tie-break
order is asserted. -/
theorem ranking_top10_sorted (agg outD outA : List TickerSummary)
    (hd : AnalysisAgent.IsSortValuesDesc agg outD)
    (ha : AnalysisAgent.IsSortValuesAsc agg outA) :
    ((outD.take 10).length = min 10 agg.length ∧
     (outD.take 10).Pairwise (fun a b => b.avg_impact ≤ a.avg_impact) ∧
     (agg.length ≤ 10 → (outD.take 10).Perm agg)) ∧
    ((outA.take 10).length = min 10 agg.length ∧
     (outA.take 10).Pairwise (fun a b => a.avg_impact ≤ b.avg_impact) ∧
     (agg.length ≤ 10 → (outA.take 10).Perm agg)) ∧
    AnalysisAgent.IsSortValuesDesc agg (AnalysisAgent.sortDescByAvg agg) ∧
    AnalysisAgent.IsSortValuesAsc agg (AnalysisAgent.sortAscByAvg agg) := by
  obtain ⟨hdp, hds⟩ := hd
  obtain ⟨hap, has⟩ := ha
  refine ⟨⟨?_, ?_, ?_⟩, ⟨?_, ?_, ?_⟩,
    sortDescByAvg_contract agg, sortAscByAvg_contract agg⟩
  · simp [List.length_take, hdp.length_eq]
  · exact hds.sublist (List.take_sublist 10 _)
  · intro h10
    rw [List.take_of_length_le (by rw [hdp.length_eq]; exact h10)]
    exact hdp
  · simp [List.length_take, hap.length_eq]
  · exact has.sublist (List.take_sublist 10 _)
  · intro h10
    rw [List.take_of_length_le (by rw [hap.length_eq]; exact h10)]
    exact hap

/-- C4 witness: the empty summary list with the empty outputs
discharges both contract hypotheses of `ranking_top10_sorted` and the
fewer-than-10 hypothesis of its all-returned clauses. -/
theorem ranking_top10_sorted_witness :
    AnalysisAgent.IsSortValuesDesc [] [] ∧
    AnalysisAgent.IsSortValuesAsc [] [] ∧
    ([] : List TickerSummary).length ≤ 10 ∧
    ((([] : List TickerSummary).take 10).Perm ([] : List TickerSummary)) :=
  ⟨⟨List.Perm.nil, List.Pairwise.nil⟩, ⟨List.Perm.nil, List.Pairwise.nil⟩,
   by norm_num,
   (ranking_top10_sorted [] [] []
      ⟨List.Perm.nil, List.Pairwise.nil⟩
      ⟨List.Perm.nil, List.Pairwise.nil⟩).1.2.2 (by norm_num)⟩

end NewsIntel
